import Mathlib

/-!
Shallow embedding of the document-workflow and billing backend
(`haiderBukhari/digitial-archieve-backend`).

The source is an Express + Supabase CRUD API.  We embed the handlers
the claims are about as pure Lean functions over explicit store
states:

* the documents table and the role-gated lifecycle handlers
  `POST /documents`, `POST /post-assignee`, `POST /save-draft`,
  `POST /publish` (both the variant of `src/unnamed/part_001`, which
  performs no role check, and the variant of `src/index.js`, which
  restricts publishing to QA), and the `showMore` computation of
  `GET /documents/:id`;
* the invoice tables and `POST /generate-invoices`,
  `PUT /invoices/:id/other-invoices`, `PUT /invoices/:id/submit`.

JavaScript `null` is modelled with `Option`; JS numbers are modelled
as `ℚ` (all arithmetic the claims touch is decimal arithmetic);
Supabase `update(...).eq(...).select()` returns the list of updated
rows and succeeds with an empty list when no row matches.  HTTP
responses are modelled by `HttpResult`.
-/

/-- `s.toLowerCase()`.  Defined by mapping `Char.toLower` over the
character list so that concrete instances reduce definitionally
(`String.toLower` recurses on byte positions by well-founded
recursion, which blocks kernel evaluation; on every string both agree
character for character). -/
def jsToLower (s : String) : String := ⟨s.data.map Char.toLower⟩

/-- An HTTP response: either a success status with a body, or an error
status with a message. -/
inductive HttpResult (α : Type) where
  | ok (status : Nat) (body : α)
  | error (status : Nat) (msg : String)
  deriving Repr, DecidableEq

/-- The decoded JWT payload attached to every authenticated request:
`{ userId, companyId, role, name }` (see the `/login` handler and
`authenticateToken` middleware). -/
structure Actor where
  userId : Nat
  companyId : Nat
  role : String
  name : String
  deriving Repr, DecidableEq

/-- One entry of a document tag's property schema. -/
structure TagProperty where
  key : String
  ptype : String
  deriving Repr, DecidableEq

/-- One entry of a document's `properties` list: the tag schema entry
plus a `value` (seeded `''` at creation: `{...prop, value: ''}`). -/
structure DocProperty where
  key : String
  ptype : String
  value : String
  deriving Repr, DecidableEq

/-- A row of the `document_tags` table. -/
structure DocumentTag where
  id : Nat
  company_id : Nat
  title : String
  properties : List TagProperty
  deriving Repr, DecidableEq

/-- A comment appended by `PUT /documents/:id/add-comment`. -/
structure DocComment where
  comment : String
  added_by : Nat
  role : String
  name : String
  deriving Repr, DecidableEq

/-- A row of the `documents` table. -/
structure Doc where
  id : Nat
  url : String
  company_id : Nat
  title : String
  progress : String
  tag_id : Nat
  progress_number : Nat
  indexer_passed_id : Option Nat
  qa_passed_id : Option Nat
  passed_to : Option Nat
  tag_name : String
  is_published : Bool
  added_by : Nat
  role : String
  properties : List DocProperty
  file_id : Nat
  comments : List DocComment
  deriving Repr, DecidableEq

/-- A calendar instant reduced to what the billing handlers read from
a JS `Date`: `getFullYear()` and `getMonth()` (`0`–`11`).  The
day-of-month only feeds the stored due date (`now + 15 days`), which
no embedded claim reads, so it is not modelled. -/
structure MonthDate where
  year : Int
  month : Int
  deriving Repr, DecidableEq

/-- `getMonth()` index to English month name, as produced by
`toLocaleString('default', { month: 'long', ... })`. -/
def monthName : Int → String
  | 0 => "January" | 1 => "February" | 2 => "March" | 3 => "April"
  | 4 => "May" | 5 => "June" | 6 => "July" | 7 => "August"
  | 8 => "September" | 9 => "October" | 10 => "November" | 11 => "December"
  | _ => ""

/-- The billing-period label
`date.toLocaleString('default', { month: 'long', year: 'numeric' })`,
e.g. `"January 2025"`. -/
def monthLabel (d : MonthDate) : String :=
  monthName d.month ++ " " ++ toString d.year

/-- A row of the `companies` table (the fields the embedded handlers
read or write).  Usage counters are nullable numbers (`x || 0` in the
source). -/
structure Company where
  id : Nat
  name : String
  contact_email : String
  status : String
  admin_name : Option String
  plan_id : Nat
  document_shared : Option ℚ
  document_downloaded : Option ℚ
  document_uploaded : Option ℚ
  created_at : MonthDate
  last_invoice_paid : Option MonthDate
  deriving Repr, DecidableEq

/-- A row of the `clients` table (the fields the embedded handlers
touch). -/
structure ClientRow where
  id : Nat
  company_id : Nat
  name : String
  document_shared : Option ℚ
  document_downloaded : Option ℚ
  document_uploaded : Option ℚ
  last_invoice_paid : Option MonthDate
  deriving Repr, DecidableEq

/-- The slice of the datastore the document-lifecycle handlers use. -/
structure DocDB where
  documents : List Doc
  document_tags : List DocumentTag
  companies : List Company
  clients : List ClientRow
  deriving Repr, DecidableEq

/-- `update(fields).eq(...)` on a list-modelled table: apply `f` to the
rows satisfying `p`, returning the new table and the updated rows
(what `.select()` yields — the empty list when nothing matched, which
is not an error). -/
def updateWhere (p : α → Bool) (f : α → α) (l : List α) : List α × List α :=
  (l.map (fun x => if p x then f x else x), (l.filter p).map f)

/-- `showMore` flag of `GET /documents/:id` (src/unnamed/part_001
lines 728–738).  `role` is lowercased on entry, as in the handler.
Note the JS comparisons `document.passed_to === document.indexer_passed_id`
compare two nullable fields, so `null === null` counts as a match. -/
def computeShowMore (doc : Doc) (currentUserId : Nat) (roleRaw : String) : Bool :=
  let role := jsToLower roleRaw
  if doc.added_by == currentUserId || role == "manager" || role == "owner" then
    !doc.passed_to.isSome
  else if doc.indexer_passed_id == some currentUserId
      || doc.qa_passed_id == some currentUserId then
    (doc.passed_to == doc.indexer_passed_id || doc.passed_to == doc.qa_passed_id)
      && !doc.is_published
  else
    false

/-- `GET /documents/:id` (src/unnamed/part_001 lines 715–741): fetch
by id (`.single()`), 404 when absent, else return the document with
its `showMore` flag. -/
def getDocumentById (actor : Actor) (documentId : Nat) (db : DocDB) :
    HttpResult (Doc × Bool) :=
  match db.documents.find? (fun d => d.id == documentId) with
  | none => .error 404 "Document not found"
  | some document => .ok 200 (document, computeShowMore document actor.userId actor.role)

/-- `POST /documents` (src/unnamed/part_001 lines 634–713).  The tag
lookup is `.eq('id', tag_id).single()` — NOT scoped to the actor's
tenant — and its failure answers status 400 "Invalid tag selected.".
On success the inserted document clones the tag's schema with empty
values; afterwards the uploader's counter (`clients` row for a Client
actor, else the `companies` row) is incremented, errors there being
ignored.  `newDocId` stands for the datastore-generated row id. -/
def createDocument (actor : Actor) (tag_id : Nat) (url tag_name : String)
    (file_id : Nat) (title : String) (newDocId : Nat) (db : DocDB) :
    HttpResult (List Doc) × DocDB :=
  match db.document_tags.find? (fun t => t.id == tag_id) with
  | none => (.error 400 "Invalid tag selected.", db)
  | some tagData =>
    let propertiesWithValues := tagData.properties.map
      (fun prop => { key := prop.key, ptype := prop.ptype, value := "" })
    let document : Doc :=
      { id := newDocId
        url := url
        company_id := actor.companyId
        title := title
        progress := "Incomplete"
        tag_id := tag_id
        progress_number :=
          if ["Owner", "Manager", "Client"].contains actor.role then 1 else 1
        indexer_passed_id := none
        qa_passed_id := none
        passed_to := none
        tag_name := tag_name
        is_published := false
        added_by := actor.userId
        role := actor.role
        properties := propertiesWithValues
        file_id := file_id
        comments := [] }
    let bumpClient : ClientRow → ClientRow :=
      fun c => { c with document_uploaded := some ((c.document_uploaded.getD 0) + 1) }
    let bumpCompany : Company → Company :=
      fun c => { c with document_uploaded := some ((c.document_uploaded.getD 0) + 1) }
    let db1 := { db with documents := db.documents ++ [document] }
    let db2 :=
      if jsToLower actor.role == "client" then
        { db1 with clients :=
            (updateWhere (fun c => c.id == actor.userId) bumpClient db1.clients).1 }
      else
        { db1 with companies :=
            (updateWhere (fun c => c.id == actor.companyId) bumpCompany db1.companies).1 }
    (.ok 201 [document], db2)

/-- `POST /post-assignee` (src/unnamed/part_001 lines 906–939): fetch
the document by id AND the actor's company (404 when absent); then
Owner/Manager/Scanner/Client set `indexer_passed_id` and `passed_to`,
an Indexer sets `qa_passed_id`, `passed_to` and `progress_number = 2`,
any other role gets 403.  The update itself filters by id only. -/
def postAssignee (actor : Actor) (document_id assignee_id : Nat) (db : DocDB) :
    HttpResult (List Doc) × DocDB :=
  let role := jsToLower actor.role
  match db.documents.find?
      (fun d => d.id == document_id && d.company_id == actor.companyId) with
  | none => (.error 404 "Document not found for this company.", db)
  | some _doc =>
    if role == "owner" || role == "manager" || role == "scanner" || role == "client" then
      let (newDocs, rows) := updateWhere (fun d => d.id == document_id)
        (fun d => { d with passed_to := some assignee_id,
                           indexer_passed_id := some assignee_id }) db.documents
      (.ok 200 rows, { db with documents := newDocs })
    else if role == "indexer" then
      let (newDocs, rows) := updateWhere (fun d => d.id == document_id)
        (fun d => { d with passed_to := some assignee_id,
                           qa_passed_id := some assignee_id,
                           progress_number := 2 }) db.documents
      (.ok 200 rows, { db with documents := newDocs })
    else
      (.error 403 "You are not allowed to assign from your role.", db)

/-- `POST /save-draft` (src/unnamed/part_001 lines 942–959): only QA
may call; sets `progress_number = 3` on the rows matching the id and
the actor's company, answering 200 with the updated rows — an empty
list when no row matched. -/
def saveDraft (actor : Actor) (document_id : Nat) (db : DocDB) :
    HttpResult (List Doc) × DocDB :=
  if jsToLower actor.role != "qa" then
    (.error 403 "Only QA role can save drafts.", db)
  else
    let (newDocs, rows) := updateWhere
      (fun d => d.id == document_id && d.company_id == actor.companyId)
      (fun d => { d with progress_number := 3 }) db.documents
    (.ok 200 rows, { db with documents := newDocs })

/-- `POST /publish` of src/unnamed/part_001 (lines 964–977).  The
comment above it reads "PUBLISH DOCUMENT (QA only)" but the handler
performs NO role check: any authenticated caller updates the rows
matching the id and caller's company to
`{ progress_number: 3, is_published: true }`. -/
def publish (actor : Actor) (document_id : Nat) (db : DocDB) :
    HttpResult (List Doc) × DocDB :=
  let (newDocs, rows) := updateWhere
    (fun d => d.id == document_id && d.company_id == actor.companyId)
    (fun d => { d with progress_number := 3, is_published := true }) db.documents
  (.ok 200 rows, { db with documents := newDocs })

/-- `POST /publish` of src/index.js (lines 632–649): identical to
`publish` except that a non-QA caller is rejected with 403 before any
update. -/
def publishIndexJs (actor : Actor) (document_id : Nat) (db : DocDB) :
    HttpResult (List Doc) × DocDB :=
  if jsToLower actor.role != "qa" then
    (.error 403 "Only QA role can publish documents.", db)
  else
    let (newDocs, rows) := updateWhere
      (fun d => d.id == document_id && d.company_id == actor.companyId)
      (fun d => { d with progress_number := 3, is_published := true }) db.documents
    (.ok 200 rows, { db with documents := newDocs })

/-- One operation of the document-lifecycle engine, as invoked through
the part_001 routes. -/
inductive EngineOp where
  | create (actor : Actor) (tag_id : Nat) (url tag_name : String)
      (file_id : Nat) (title : String) (newDocId : Nat)
  | assign (actor : Actor) (document_id assignee_id : Nat)
  | draft (actor : Actor) (document_id : Nat)
  | pub (actor : Actor) (document_id : Nat)
  deriving Repr

/-- State transition of one engine operation (the HTTP response is
dropped). -/
def applyOp (op : EngineOp) (db : DocDB) : DocDB :=
  match op with
  | .create actor tag_id url tag_name file_id title newDocId =>
    (createDocument actor tag_id url tag_name file_id title newDocId db).2
  | .assign actor document_id assignee_id =>
    (postAssignee actor document_id assignee_id db).2
  | .draft actor document_id => (saveDraft actor document_id db).2
  | .pub actor document_id => (publish actor document_id db).2

/-- The `progress_number` of the document a point lookup by id finds. -/
def progressOf (db : DocDB) (documentId : Nat) : Option Nat :=
  (db.documents.find? (fun d => d.id == documentId)).map (·.progress_number)

/-- `x.toFixed(4)` followed by `parseFloat`, on exact decimal
arithmetic: round to 4 decimal places, ties picking the larger value
(the ECMAScript `toFixed` tie rule). -/
def round4 (q : ℚ) : ℚ := (⌊q * 10000 + 1/2⌋ : ℤ) / 10000

/-- JS `parseFloat(x) || d` on a nullable numeric column: `null`
(and `NaN`) fall back to `d`, and so does an explicit `0` since `0`
is falsy. -/
def jsOr (x : Option ℚ) (d : ℚ) : ℚ :=
  match x with
  | none => d
  | some v => if v = 0 then d else v

/-- JS `x || d` on a nullable integer column (used for
`plan.billing_duration || 1`). -/
def jsOrInt (x : Option Int) (d : Int) : Int :=
  match x with
  | none => d
  | some v => if v = 0 then d else v

/-- A row of the `plans` table (the rate fields `POST
/generate-invoices` reads, all nullable). -/
structure Plan where
  id : Nat
  price_description : Option ℚ
  upload_count : Option ℚ
  download_count : Option ℚ
  share_count : Option ℚ
  share_price_per_thousand : Option ℚ
  download_price_per_thousand : Option ℚ
  upload_price_per_ten : Option ℚ
  billing_duration : Option Int
  deriving Repr, DecidableEq

/-- One adjustment line item of `invoice.other_invoices`.  The handler
reads the (misspelled) `ammount` field: `parseFloat(item.ammount || 0)`. -/
structure OtherItem where
  description : String
  ammount : Option ℚ
  deriving Repr, DecidableEq

/-- A row of the tenant-level `invoices` table.  `id` is the
datastore-generated key (the generator stores `0`; claims never read
a generated row's id).  A `null` `other_invoices` column and an empty
list are indistinguishable to the handlers (`invoice.other_invoices
|| []`), so the model uses `List`. -/
structure Invoice where
  id : Nat
  company_id : Nat
  company_name : String
  email : String
  invoice_month : String
  invoice_value : ℚ
  monthly : ℚ
  document_shared : ℚ
  shared_amount : ℚ
  document_downloaded : ℚ
  download_amount : ℚ
  document_uploaded : ℚ
  upload_amount : ℚ
  invoice_submitted : Bool
  owner_name : String
  is_submitted : Bool
  invoice_submitted_admin : Bool
  other_invoices : List OtherItem
  deriving Repr, DecidableEq

/-- A row of the `custom_invoices` table (fields the submit handler
reads). -/
structure CustomInvoice where
  id : Nat
  is_client : Bool
  invoice_submitted : Bool
  invoice_submitted_admin : Bool
  deriving Repr, DecidableEq

/-- A row of the `client_invoices` table (fields the submit handler
reads). -/
structure ClientInvoice where
  id : Nat
  company_id : Nat
  invoice_submitted : Bool
  invoice_submitted_admin : Bool
  deriving Repr, DecidableEq

/-- The slice of the datastore the invoice handlers use. -/
structure BillingDB where
  companies : List Company
  clients : List ClientRow
  plans : List Plan
  invoices : List Invoice
  custom_invoices : List CustomInvoice
  client_invoices : List ClientInvoice
  deriving Repr, DecidableEq

/-- Per-company outcome statuses of `POST /generate-invoices` (the
`status` strings pushed into `results`; the datastore insert is
assumed to succeed, so the `'Invoice creation failed'` path does not
arise in the model). -/
inductive GenStatus where
  | alreadyExists
  | planNotFound
  | notDueYet
  | invoiceCreated
  deriving Repr, DecidableEq

/-- One entry of the `results` array of `POST /generate-invoices`. -/
structure GenResult where
  company : String
  status : GenStatus
  deriving Repr, DecidableEq

/-- The invoice row inserted by `POST /generate-invoices` for one due
company (src/unnamed/part_001 lines 1214–1252). -/
def mkInvoice (label : String) (company : Company) (plan : Plan) : Invoice :=
  let monthly := jsOr plan.price_description 0
  let upload_count := jsOr plan.upload_count 1
  let download_count := jsOr plan.download_count 1
  let share_count := jsOr plan.share_count 1
  let docShared := company.document_shared.getD 0
  let docDownloaded := company.document_downloaded.getD 0
  let docUploaded := company.document_uploaded.getD 0
  let shared_amount :=
    round4 (docShared / share_count * (plan.share_price_per_thousand.getD 0))
  let download_amount :=
    round4 (docDownloaded / download_count * (plan.download_price_per_thousand.getD 0))
  let upload_amount :=
    round4 (docUploaded / upload_count * (plan.upload_price_per_ten.getD 0))
  let total := round4 (monthly + shared_amount + download_amount + upload_amount)
  { id := 0
    company_id := company.id
    company_name := company.name
    email := company.contact_email
    invoice_month := label
    invoice_value := total
    monthly := monthly
    document_shared := docShared
    shared_amount := shared_amount
    document_downloaded := docDownloaded
    download_amount := download_amount
    document_uploaded := docUploaded
    upload_amount := upload_amount
    invoice_submitted := false
    owner_name := company.admin_name.getD company.name
    is_submitted := false
    invoice_submitted_admin := false
    other_invoices := [] }

/-- One iteration of the company loop of `POST /generate-invoices`:
append the company's result and, when due, the inserted invoice.
`existingInvoices` is the snapshot fetched before the loop. -/
def genStep (now : MonthDate) (currentMonth : String) (plans : List Plan)
    (existingInvoices : List Invoice)
    (acc : List GenResult × List Invoice) (company : Company) :
    List GenResult × List Invoice :=
  let alreadyInvoiced := existingInvoices.any (fun inv => inv.company_id == company.id)
  if alreadyInvoiced then
    (acc.1 ++ [⟨company.name, .alreadyExists⟩], acc.2)
  else
    match plans.find? (fun p => p.id == company.plan_id) with
    | none => (acc.1 ++ [⟨company.name, .planNotFound⟩], acc.2)
    | some plan =>
      let referenceDate := company.last_invoice_paid.getD company.created_at
      let monthDifference :=
        (now.year - referenceDate.year) * 12 + (now.month - referenceDate.month)
      if monthDifference < jsOrInt plan.billing_duration 1 then
        (acc.1 ++ [⟨company.name, .notDueYet⟩], acc.2)
      else
        (acc.1 ++ [⟨company.name, .invoiceCreated⟩],
         acc.2 ++ [mkInvoice currentMonth company plan])

/-- `POST /generate-invoices` (src/unnamed/part_001 lines 1158–1264):
for each Active company, skip when an invoice for the current month
label already exists (snapshot taken before the loop), skip when the
plan is missing or the months since `last_invoice_paid` (falling back
to `created_at`) are below `billing_duration || 1`, and otherwise
insert the computed invoice row. -/
def generateInvoices (now : MonthDate) (db : BillingDB) :
    List GenResult × BillingDB :=
  let currentMonth := monthLabel now
  let companies := db.companies.filter (fun c => c.status == "Active")
  let existingInvoices := db.invoices.filter (fun i => i.invoice_month == currentMonth)
  let (results, newInvoices) :=
    companies.foldl (genStep now currentMonth db.plans existingInvoices) ([], [])
  (results, { db with invoices := db.invoices ++ newInvoices })

/-- `PUT /invoices/:id/other-invoices` (src/unnamed/part_001 lines
1266–1309): 404 when the invoice id is absent; otherwise subtract the
stored line items' `ammount` sum, add the new items' sum, round to 4
decimals, and store the new value together with the replaced item
list.  The response body carries `updated_invoice_value`. -/
def applyOtherInvoices (id : Nat) (other_invoices : List OtherItem)
    (invoices : List Invoice) : HttpResult ℚ × List Invoice :=
  match invoices.find? (fun i => i.id == id) with
  | none => (.error 404 "Invoice not found", invoices)
  | some invoice =>
    let oldOtherInvoices := invoice.other_invoices
    let oldSum := oldOtherInvoices.foldl (fun s item => s + item.ammount.getD 0) 0
    let newSum := other_invoices.foldl (fun s item => s + item.ammount.getD 0) 0
    let updatedInvoiceValue := round4 (invoice.invoice_value - oldSum + newSum)
    let (newInvoices, _) := updateWhere (fun i => i.id == id)
      (fun i => { i with other_invoices := other_invoices,
                         invoice_value := updatedInvoiceValue }) invoices
    (.ok 200 updatedInvoiceValue, newInvoices)

/-- The `custom_invoices` block of `PUT /invoices/:id/submit`
(src/unnamed/part_001 lines 1874–1920).  `none` models the source
paths that return nothing and fall through to the `client_invoices`
lookup (an Owner on an unsubmitted client-directed custom invoice,
or any role outside client/owner/admin). -/
def submitCustomBranch (roleLower : String) (invoiceId : Nat)
    (customInvoice : CustomInvoice) (db : BillingDB) :
    Option (HttpResult String × BillingDB) :=
  if roleLower == "client" then
    if customInvoice.is_client then
      let (newCustom, _) := updateWhere (fun i => i.id == invoiceId)
        (fun i => { i with invoice_submitted := true }) db.custom_invoices
      some (.ok 200 "Client submitted invoice.",
            { db with custom_invoices := newCustom })
    else
      some (.error 403 "Client cannot submit this invoice.", db)
  else if roleLower == "owner" then
    if customInvoice.is_client && customInvoice.invoice_submitted then
      let (newCustom, _) := updateWhere (fun i => i.id == invoiceId)
        (fun i => { i with invoice_submitted_admin := true }) db.custom_invoices
      some (.ok 200 "Owner approved client invoice.",
            { db with custom_invoices := newCustom })
    else if !customInvoice.is_client then
      let (newCustom, _) := updateWhere (fun i => i.id == invoiceId)
        (fun i => { i with invoice_submitted := true }) db.custom_invoices
      some (.ok 200 "Owner submitted invoice.",
            { db with custom_invoices := newCustom })
    else
      none
  else if roleLower == "admin" then
    if customInvoice.invoice_submitted then
      let (newCustom, _) := updateWhere (fun i => i.id == invoiceId)
        (fun i => { i with invoice_submitted_admin := true }) db.custom_invoices
      some (.ok 200 "Admin approved custom invoice.",
            { db with custom_invoices := newCustom })
    else
      some (.error 400 "Invoice must be submitted first.", db)
  else
    none

/-- The `client_invoices` block plus the final 404 of
`PUT /invoices/:id/submit` (src/unnamed/part_001 lines 1924–1973). -/
def submitClientBranch (actor : Actor) (invoiceId : Nat) (now : MonthDate)
    (db : BillingDB) : HttpResult String × BillingDB :=
  let roleLower := jsToLower actor.role
  match db.client_invoices.find? (fun i => i.id == invoiceId) with
  | some clientInvoice =>
    if roleLower == "client" then
      let (newClientInvoices, _) := updateWhere (fun i => i.id == invoiceId)
        (fun i => { i with invoice_submitted := true }) db.client_invoices
      let (newClients, _) := updateWhere (fun c => c.id == actor.userId)
        (fun c => { c with document_shared := some 0,
                           document_downloaded := some 0,
                           document_uploaded := some 0,
                           last_invoice_paid := some now }) db.clients
      (.ok 200 "Client invoice submitted and stats reset.",
       { db with client_invoices := newClientInvoices, clients := newClients })
    else if roleLower == "owner" then
      if clientInvoice.invoice_submitted then
        let (newClientInvoices, _) := updateWhere (fun i => i.id == invoiceId)
          (fun i => { i with invoice_submitted_admin := true }) db.client_invoices
        (.ok 200 "Owner approved client invoice.",
         { db with client_invoices := newClientInvoices })
      else
        (.error 400 "Client must submit the invoice first.", db)
    else
      (.error 404 "Invoice not found in any table.", db)
  | none => (.error 404 "Invoice not found in any table.", db)

/-- `PUT /invoices/:id/submit` (src/unnamed/part_001 lines 1825–1974):
try the tenant `invoices` table first — an Admin may only stamp
`invoice_submitted_admin` on an already-submitted invoice (400
otherwise), while any other role stamps `invoice_submitted` and, as a
side effect, zeroes the actor's company usage counters and sets its
`last_invoice_paid` to now.  When the id is not a tenant invoice the
handler falls through to `custom_invoices`, then `client_invoices`,
then 404. -/
def submitInvoice (actor : Actor) (invoiceId : Nat) (now : MonthDate)
    (db : BillingDB) : HttpResult String × BillingDB :=
  let roleLower := jsToLower actor.role
  match db.invoices.find? (fun i => i.id == invoiceId) with
  | some invoice =>
    if roleLower == "admin" then
      if invoice.invoice_submitted then
        let (newInvoices, _) := updateWhere (fun i => i.id == invoiceId)
          (fun i => { i with invoice_submitted_admin := true }) db.invoices
        (.ok 200 "Admin confirmed invoice submission.",
         { db with invoices := newInvoices })
      else
        (.error 400 "Invoice must be submitted first by the company.", db)
    else
      let (newInvoices, _) := updateWhere (fun i => i.id == invoiceId)
        (fun i => { i with invoice_submitted := true }) db.invoices
      let (newCompanies, _) := updateWhere (fun c => c.id == actor.companyId)
        (fun c => { c with last_invoice_paid := some now,
                           document_shared := some 0,
                           document_downloaded := some 0,
                           document_uploaded := some 0 }) db.companies
      (.ok 200 "Invoice submitted successfully.",
       { db with invoices := newInvoices, companies := newCompanies })
  | none =>
    match db.custom_invoices.find? (fun i => i.id == invoiceId) with
    | some customInvoice =>
      match submitCustomBranch roleLower invoiceId customInvoice db with
      | some r => r
      | none => submitClientBranch actor invoiceId now db
    | none => submitClientBranch actor invoiceId now db

/-! ### List/update helper lemmas -/

/-- `updateWhere` leaves the table unchanged and returns no rows when
no row matches the predicate. -/
theorem updateWhere_nomatch {α : Type} {p : α → Bool} {f : α → α} {l : List α}
    (h : ∀ x ∈ l, p x = false) : updateWhere p f l = (l, []) := by
  unfold updateWhere
  refine Prod.ext ?_ ?_
  · simp only
    calc l.map (fun x => if p x then f x else x) = l.map id := by
          apply List.map_congr_left
          intro a ha
          simp [h a ha]
      _ = l := List.map_id l
  · simp only
    have : l.filter p = [] := by
      simp only [List.filter_eq_nil_iff]
      intro a ha
      simp [h a ha]
    simp [this]

/-! ### Concrete fixtures for counterexamples and witnesses -/

/-- A Scanner employee of tenant 1. -/
def scannerSam : Actor := ⟨10, 1, "Scanner", "Sam"⟩

/-- A QA employee of tenant 1. -/
def qaQuinn : Actor := ⟨11, 1, "QA", "Quinn"⟩

/-- An Indexer employee of tenant 1. -/
def indexerIda : Actor := ⟨12, 1, "Indexer", "Ida"⟩

/-- The platform Admin. -/
def adminAde : Actor := ⟨13, 0, "Admin", "Ade"⟩

/-- A tenant-1 document that has been handed from the indexer (id 12)
to the QA handler (id 11): `passed_to` equals `qa_passed_id`. -/
def crossDoc : Doc :=
  { id := 1, url := "u", company_id := 1, title := "t", progress := "Incomplete",
    tag_id := 1, progress_number := 2, indexer_passed_id := some 12,
    qa_passed_id := some 11, passed_to := some 11, tag_name := "Tag",
    is_published := false, added_by := 10, role := "Scanner", properties := [],
    file_id := 1, comments := [] }

/-- A freshly created, still unassigned tenant-1 document added by
Scanner 10. -/
def freshDoc : Doc :=
  { id := 2, url := "u", company_id := 1, title := "t", progress := "Incomplete",
    tag_id := 1, progress_number := 1, indexer_passed_id := none,
    qa_passed_id := none, passed_to := none, tag_name := "Tag",
    is_published := false, added_by := 10, role := "Scanner", properties := [],
    file_id := 1, comments := [] }

/-- A store holding only `crossDoc`. -/
def pubDB : DocDB := ⟨[crossDoc], [], [], []⟩

/-- An entirely empty document store. -/
def emptyDB : DocDB := ⟨[], [], [], []⟩

/-- A document tag that belongs to tenant 2, not to `scannerSam`'s
tenant 1. -/
def otherTenantTag : DocumentTag :=
  { id := 9, company_id := 2, title := "Other", properties := [⟨"k", "text"⟩] }

/-- A store whose only tag belongs to tenant 2. -/
def tagDB : DocDB := ⟨[], [otherTenantTag], [], []⟩

/-! ### C2 — computeShowMore -/

/-- C2 (counterexample).  The claim says a non-author, non-Manager/Owner
actor matching `indexer_passed_id` sees `showMore = true` exactly when
`passed_to` equals *that same* actor's id.  In the code the check is
disjunctive over both handler fields: for Indexer 12 on a document
whose `passed_to` equals the *QA* handler (11), `computeShowMore`
returns `true` although `passed_to ≠ some 12`. -/
theorem computeShowMore_cross_handler_counterexample :
    computeShowMore crossDoc 12 "Indexer" = true ∧
    crossDoc.added_by ≠ 12 ∧
    jsToLower "Indexer" ≠ "manager" ∧ jsToLower "Indexer" ≠ "owner" ∧
    crossDoc.indexer_passed_id = some 12 ∧
    crossDoc.passed_to ≠ some 12 ∧
    crossDoc.is_published = false := by decide

/-- C2 (amended).  `computeShowMore` characterised as the code has it:
for the document's author and for Manager/Owner it is `true` iff the
document is unassigned; for an actor matching `indexer_passed_id` or
`qa_passed_id` it is `true` iff `passed_to` equals the indexer field
OR the QA field (a `null` `passed_to` matching a `null` handler field
counts) and the document is unpublished; otherwise it is `false`. -/
theorem computeShowMore_characterization (doc : Doc) (uid : Nat) (roleRaw : String) :
    (doc.added_by = uid ∨ jsToLower roleRaw = "manager" ∨ jsToLower roleRaw = "owner" →
      (computeShowMore doc uid roleRaw = true ↔ doc.passed_to = none)) ∧
    (¬(doc.added_by = uid ∨ jsToLower roleRaw = "manager" ∨ jsToLower roleRaw = "owner") →
      (doc.indexer_passed_id = some uid ∨ doc.qa_passed_id = some uid) →
      (computeShowMore doc uid roleRaw = true ↔
        ((doc.passed_to = doc.indexer_passed_id ∨ doc.passed_to = doc.qa_passed_id) ∧
          doc.is_published = false))) ∧
    (¬(doc.added_by = uid ∨ jsToLower roleRaw = "manager" ∨ jsToLower roleRaw = "owner") →
      ¬(doc.indexer_passed_id = some uid ∨ doc.qa_passed_id = some uid) →
      computeShowMore doc uid roleRaw = false) := by
  unfold computeShowMore
  refine ⟨fun h => ?_, fun h1 h2 => ?_, fun h1 h2 => ?_⟩
  · rw [if_pos]
    · simp [Option.isSome_iff_ne_none]
    · simpa [beq_iff_eq, or_assoc] using h
  · rw [if_neg, if_pos]
    · simp [Bool.and_eq_true, beq_iff_eq, Bool.not_eq_true']
    · simpa [beq_iff_eq] using h2
    · simpa [beq_iff_eq, not_or, and_assoc] using h1
  · rw [if_neg, if_neg]
    · simpa [beq_iff_eq, not_or, and_assoc] using h2
    · simpa [beq_iff_eq, not_or, and_assoc] using h1

/-- C2 (witness): the original Scanner author of a still-unassigned
document gets `showMore = true`. -/
theorem computeShowMore_characterization_witness :
    computeShowMore freshDoc 10 "Scanner" = true :=
  ((computeShowMore_characterization freshDoc 10 "Scanner").1 (Or.inl rfl)).mpr rfl

/-! ### C3 — publish role gating -/

/-- C3 (code bug evidence).  The part_001 `/publish` handler is headed
"PUBLISH DOCUMENT (QA only)" yet checks no role: Scanner `scannerSam`
publishes `crossDoc` successfully, while the `src/index.js` variant
of the same route rejects the identical request with 403 and changes
nothing. -/
theorem publish_lacks_qa_gate :
    jsToLower scannerSam.role ≠ "qa" ∧
    (publish scannerSam 1 pubDB).1
      = .ok 200 [{ crossDoc with progress_number := 3, is_published := true }] ∧
    (publish scannerSam 1 pubDB).2.documents
      = [{ crossDoc with progress_number := 3, is_published := true }] ∧
    publishIndexJs scannerSam 1 pubDB
      = (.error 403 "Only QA role can publish documents.", pubDB) := by decide

/-! ### C9 — document creation and tag scoping -/

/-- C9 (counterexample).  The claim says `create` fails NotFound when
the tag does not resolve *within the actor's tenant*.  The code looks
the tag up by id alone: Scanner of tenant 1 creates a document from
tag 9 of tenant 2, and the insert succeeds with 201. -/
theorem createDocument_ignores_tag_tenant :
    otherTenantTag.company_id ≠ scannerSam.companyId ∧
    ((createDocument scannerSam 9 "u" "Other" 3 "T" 1 tagDB).1 =
      .ok 201 [{ id := 1, url := "u", company_id := 1, title := "T",
                 progress := "Incomplete", tag_id := 9, progress_number := 1,
                 indexer_passed_id := none, qa_passed_id := none,
                 passed_to := none, tag_name := "Other", is_published := false,
                 added_by := 10, role := "Scanner",
                 properties := [⟨"k", "text", ""⟩], file_id := 3,
                 comments := [] }]) ∧
    (createDocument scannerSam 9 "u" "Other" 3 "T" 1 tagDB).2.documents.length = 1 := by
  decide

/-- C9 (amended).  The tag lookup is tenant-unscoped and its failure
answers 400 ("Invalid tag selected.") rather than 404, inserting
nothing; whenever the tag id resolves — in any tenant — the new
document clones the tag's property schema with empty values,
`progress_number = 1`, `is_published = false`, and records the actor
as `added_by` in the actor's own tenant. -/
theorem createDocument_behavior (actor : Actor) (tag_id : Nat) (url tag_name : String)
    (file_id : Nat) (title : String) (newDocId : Nat) (db : DocDB) :
    (db.document_tags.find? (fun t => t.id == tag_id) = none →
      createDocument actor tag_id url tag_name file_id title newDocId db
        = (.error 400 "Invalid tag selected.", db)) ∧
    (∀ tag, db.document_tags.find? (fun t => t.id == tag_id) = some tag →
      ∃ doc, (createDocument actor tag_id url tag_name file_id title newDocId db).1
          = .ok 201 [doc] ∧
        (createDocument actor tag_id url tag_name file_id title newDocId db).2.documents
          = db.documents ++ [doc] ∧
        doc.properties = tag.properties.map (fun p => ⟨p.key, p.ptype, ""⟩) ∧
        doc.progress_number = 1 ∧ doc.is_published = false ∧
        doc.added_by = actor.userId ∧ doc.company_id = actor.companyId) := by
  constructor
  · intro h
    simp [createDocument, h]
  · intro tag h
    simp only [createDocument, h, ite_self]
    refine ⟨_, rfl, ?_, rfl, rfl, rfl, rfl, rfl⟩
    split <;> rfl

/-- C9 (witness): creating from an existing tag inserts the cloned
document. -/
theorem createDocument_behavior_witness :
    ∃ doc, (createDocument scannerSam 9 "u" "Other" 3 "T" 1 tagDB).1 = .ok 201 [doc] ∧
      (createDocument scannerSam 9 "u" "Other" 3 "T" 1 tagDB).2.documents
        = tagDB.documents ++ [doc] ∧
      doc.properties = otherTenantTag.properties.map (fun p => ⟨p.key, p.ptype, ""⟩) ∧
      doc.progress_number = 1 ∧ doc.is_published = false ∧
      doc.added_by = scannerSam.userId ∧ doc.company_id = scannerSam.companyId :=
  (createDocument_behavior scannerSam 9 "u" "Other" 3 "T" 1 tagDB).2
    otherTenantTag (by decide)

/-! ### C10 — publish/saveDraft on a missing document -/

/-- C10 (counterexample).  The claim says *every authenticated caller*
gets a success-with-empty-result from both operations when the
document is missing; but `saveDraft` checks the role first, so
Scanner `scannerSam` is rejected 403 on the empty store. -/
theorem saveDraft_missing_doc_nonqa_forbidden :
    emptyDB.documents = [] ∧
    saveDraft scannerSam 5 emptyDB
      = (.error 403 "Only QA role can save drafts.", emptyDB) := by decide

/-- C10 (amended).  When no document matches the id and the caller's
tenant: `publish` (part_001 variant) answers 200 with an empty result
set for every authenticated caller and changes nothing; `saveDraft`
does the same for QA callers, while non-QA callers are rejected 403
before the lookup. -/
theorem missing_doc_publish_saveDraft (actor : Actor) (document_id : Nat) (db : DocDB)
    (h : ∀ d ∈ db.documents, ¬(d.id = document_id ∧ d.company_id = actor.companyId)) :
    publish actor document_id db = (.ok 200 [], db) ∧
    (jsToLower actor.role = "qa" →
      saveDraft actor document_id db = (.ok 200 [], db)) ∧
    (jsToLower actor.role ≠ "qa" →
      saveDraft actor document_id db = (.error 403 "Only QA role can save drafts.", db)) := by
  have hb : ∀ d ∈ db.documents,
      (d.id == document_id && d.company_id == actor.companyId) = false := by
    intro d hd
    have := h d hd
    simp only [Bool.and_eq_false_iff, beq_eq_false_iff_ne, ne_eq]
    tauto
  refine ⟨?_, fun hqa => ?_, fun hqa => ?_⟩
  · simp [publish, updateWhere_nomatch hb]
  · simp [saveDraft, hqa, updateWhere_nomatch hb]
  · simp [saveDraft, hqa]

/-- C10 (witness): QA caller on an id absent from the store gets 200
with `[]` from both routes. -/
theorem missing_doc_publish_saveDraft_witness :
    publish qaQuinn 5 pubDB = (.ok 200 [], pubDB) ∧
    saveDraft qaQuinn 5 pubDB = (.ok 200 [], pubDB) :=
  ⟨(missing_doc_publish_saveDraft qaQuinn 5 pubDB (by decide)).1,
   (missing_doc_publish_saveDraft qaQuinn 5 pubDB (by decide)).2.1 (by decide)⟩

/-! ### C8 — post-assignee role dispatch -/

/-- C8.  `POST /post-assignee`: with the document found in the actor's
tenant, Owner/Manager/Scanner/Client set `indexer_passed_id` and
`passed_to` on the rows matching the id and leave every
`progress_number` unchanged; an Indexer sets `qa_passed_id`,
`passed_to` and `progress_number = 2`; any other role is rejected 403
with the store untouched; and a document id absent from the actor's
tenant fails 404 with the store untouched. -/
theorem postAssignee_cases (actor : Actor) (did aid : Nat) (db : DocDB) :
    (db.documents.find? (fun d => d.id == did && d.company_id == actor.companyId) = none →
      postAssignee actor did aid db
        = (.error 404 "Document not found for this company.", db)) ∧
    ((db.documents.find? (fun d => d.id == did && d.company_id == actor.companyId)).isSome →
      (jsToLower actor.role = "owner" ∨ jsToLower actor.role = "manager" ∨
        jsToLower actor.role = "scanner" ∨ jsToLower actor.role = "client") →
      (postAssignee actor did aid db).2.documents
        = db.documents.map (fun d => if d.id == did then
            { d with passed_to := some aid, indexer_passed_id := some aid } else d) ∧
      (postAssignee actor did aid db).2.documents.map (·.progress_number)
        = db.documents.map (·.progress_number) ∧
      (postAssignee actor did aid db).1
        = .ok 200 ((db.documents.filter (fun d => d.id == did)).map
            (fun d => { d with passed_to := some aid, indexer_passed_id := some aid }))) ∧
    ((db.documents.find? (fun d => d.id == did && d.company_id == actor.companyId)).isSome →
      jsToLower actor.role = "indexer" →
      (postAssignee actor did aid db).2.documents
        = db.documents.map (fun d => if d.id == did then
            { d with passed_to := some aid, qa_passed_id := some aid,
                     progress_number := 2 } else d) ∧
      (postAssignee actor did aid db).1
        = .ok 200 ((db.documents.filter (fun d => d.id == did)).map
            (fun d => { d with passed_to := some aid, qa_passed_id := some aid,
                               progress_number := 2 }))) ∧
    ((db.documents.find? (fun d => d.id == did && d.company_id == actor.companyId)).isSome →
      ¬(jsToLower actor.role = "owner" ∨ jsToLower actor.role = "manager" ∨
        jsToLower actor.role = "scanner" ∨ jsToLower actor.role = "client") →
      jsToLower actor.role ≠ "indexer" →
      postAssignee actor did aid db
        = (.error 403 "You are not allowed to assign from your role.", db)) := by
  refine ⟨fun h => ?_, fun h h1 => ?_, fun h h1 => ?_, fun h h1 h2 => ?_⟩
  · simp [postAssignee, h]
  · rcases Option.isSome_iff_exists.mp h with ⟨d0, hd0⟩
    have hb : (jsToLower actor.role == "owner" || jsToLower actor.role == "manager"
        || jsToLower actor.role == "scanner" || jsToLower actor.role == "client") = true := by
      simpa [beq_iff_eq, or_assoc] using h1
    refine ⟨?_, ?_, ?_⟩
    · simp [postAssignee, hd0, hb, updateWhere]
    · simp only [postAssignee, hd0, hb, updateWhere, if_true]
      simp only [List.map_map]
      refine List.map_congr_left ?_
      intro a _
      by_cases hc : a.id == did <;> simp [hc, Function.comp]
    · simp [postAssignee, hd0, hb, updateWhere]
  · rcases Option.isSome_iff_exists.mp h with ⟨d0, hd0⟩
    have hi : (jsToLower actor.role == "indexer") = true := by simpa [beq_iff_eq] using h1
    have hb : (jsToLower actor.role == "owner" || jsToLower actor.role == "manager"
        || jsToLower actor.role == "scanner" || jsToLower actor.role == "client") = false := by
      simp only [beq_iff_eq] at hi ⊢
      simp [hi]
    refine ⟨?_, ?_⟩
    · simp [postAssignee, hd0, hb, hi, updateWhere]
    · simp [postAssignee, hd0, hb, hi, updateWhere]
  · rcases Option.isSome_iff_exists.mp h with ⟨d0, hd0⟩
    have hb : (jsToLower actor.role == "owner" || jsToLower actor.role == "manager"
        || jsToLower actor.role == "scanner" || jsToLower actor.role == "client") = false := by
      simpa [beq_iff_eq, not_or, Bool.or_eq_false_iff, and_assoc] using h1
    have hi : (jsToLower actor.role == "indexer") = false := by
      simpa [beq_iff_eq] using h2
    simp [postAssignee, hd0, hb, hi]

/-- C8 (witness): Scanner assigning the fresh document to Indexer 12
sets both hand-off fields and leaves `progress_number` untouched. -/
theorem postAssignee_cases_witness :
    (postAssignee scannerSam 2 12 ⟨[freshDoc], [], [], []⟩).2.documents
      = [freshDoc].map (fun d => if d.id == 2 then
          { d with passed_to := some 12, indexer_passed_id := some 12 } else d) ∧
    (postAssignee scannerSam 2 12 ⟨[freshDoc], [], [], []⟩).2.documents.map (·.progress_number)
      = [freshDoc].map (·.progress_number) ∧
    (postAssignee scannerSam 2 12 ⟨[freshDoc], [], [], []⟩).1
      = .ok 200 (([freshDoc].filter (fun d => d.id == 2)).map
          (fun d => { d with passed_to := some 12, indexer_passed_id := some 12 })) :=
  (postAssignee_cases scannerSam 2 12 ⟨[freshDoc], [], [], []⟩).2.1 (by decide)
    (Or.inr (Or.inr (Or.inl rfl)))

/-! ### C7 — tenant invoice submission workflow -/

/-- C7.  `PUT /invoices/:id/submit` on an id found in the tenant
`invoices` table: a non-Admin actor stamps `invoice_submitted = true`
and, as a side effect, zeroes the actor company's three usage
counters and sets its `last_invoice_paid` to now; an Admin actor is
rejected 400 ("must be submitted first") with nothing changed while
`invoice_submitted` is still false, and otherwise stamps only
`invoice_submitted_admin = true`, leaving the companies table
untouched. -/
theorem submitInvoice_tenant_workflow (actor : Actor) (invoiceId : Nat)
    (now : MonthDate) (db : BillingDB) (inv : Invoice)
    (hfind : db.invoices.find? (fun i => i.id == invoiceId) = some inv) :
    (jsToLower actor.role ≠ "admin" →
      (submitInvoice actor invoiceId now db).1
        = .ok 200 "Invoice submitted successfully." ∧
      (submitInvoice actor invoiceId now db).2.invoices
        = db.invoices.map (fun i => if i.id == invoiceId then
            { i with invoice_submitted := true } else i) ∧
      (submitInvoice actor invoiceId now db).2.companies
        = db.companies.map (fun c => if c.id == actor.companyId then
            { c with last_invoice_paid := some now, document_shared := some 0,
                     document_downloaded := some 0,
                     document_uploaded := some 0 } else c)) ∧
    (jsToLower actor.role = "admin" → inv.invoice_submitted = false →
      submitInvoice actor invoiceId now db
        = (.error 400 "Invoice must be submitted first by the company.", db)) ∧
    (jsToLower actor.role = "admin" → inv.invoice_submitted = true →
      (submitInvoice actor invoiceId now db).1
        = .ok 200 "Admin confirmed invoice submission." ∧
      (submitInvoice actor invoiceId now db).2.invoices
        = db.invoices.map (fun i => if i.id == invoiceId then
            { i with invoice_submitted_admin := true } else i) ∧
      (submitInvoice actor invoiceId now db).2.companies = db.companies) := by
  refine ⟨fun h => ?_, fun h hsub => ?_, fun h hsub => ?_⟩
  · have hb : (jsToLower actor.role == "admin") = false := by
      simpa [beq_iff_eq] using h
    refine ⟨?_, ?_, ?_⟩ <;> simp [submitInvoice, hfind, hb, updateWhere]
  · have hb : (jsToLower actor.role == "admin") = true := by
      simpa [beq_iff_eq] using h
    simp [submitInvoice, hfind, hb, hsub]
  · have hb : (jsToLower actor.role == "admin") = true := by
      simpa [beq_iff_eq] using h
    refine ⟨?_, ?_, ?_⟩ <;> simp [submitInvoice, hfind, hb, hsub, updateWhere]

/-- A generated-looking tenant invoice of company 1, not yet
submitted, with whole-number amounts. -/
def invAcme : Invoice :=
  { id := 1, company_id := 1, company_name := "Acme", email := "a@a",
    invoice_month := "July 2025", invoice_value := 121, monthly := 100,
    document_shared := 2000, shared_amount := 10, document_downloaded := 0,
    download_amount := 1, document_uploaded := 50, upload_amount := 10,
    invoice_submitted := false, owner_name := "Acme", is_submitted := false,
    invoice_submitted_admin := false, other_invoices := [] }

/-- Tenant 1 with one unsubmitted invoice and no other billing rows. -/
def subDB : BillingDB :=
  { companies := [⟨1, "Acme", "a@a", "Active", none, 1, some 2000, some 0,
      some 50, ⟨2025, 0⟩, none⟩],
    clients := [], plans := [], invoices := [invAcme],
    custom_invoices := [], client_invoices := [] }

/-- C7 (witness): Admin on the unsubmitted invoice is rejected with
the "must be submitted first" error and nothing changes. -/
theorem submitInvoice_tenant_workflow_witness :
    submitInvoice adminAde 1 ⟨2025, 6⟩ subDB
      = (.error 400 "Invoice must be submitted first by the company.", subDB) :=
  (submitInvoice_tenant_workflow adminAde 1 ⟨2025, 6⟩ subDB invAcme rfl).2.1
    rfl rfl

/-! ### C6 — invoice adjustment line items -/

/-- `round4` moves a value by at most `1/10000` (in fact at most
`1/20000`). -/
theorem abs_round4_sub_le (q : ℚ) : |round4 q - q| ≤ 1 / 10000 := by
  unfold round4
  have h1 : ((⌊q * 10000 + 1/2⌋ : ℤ) : ℚ) ≤ q * 10000 + 1/2 :=
    Int.floor_le _
  have h2 : q * 10000 + 1/2 - 1 < ((⌊q * 10000 + 1/2⌋ : ℤ) : ℚ) :=
    Int.sub_one_lt_floor _
  rw [abs_le]
  constructor <;> nlinarith [h1, h2]

/-- C6.  `PUT /invoices/:id/other-invoices` on an existing invoice:
the stored value becomes `round4(old − Σ old items + Σ new items)`,
the stored item list is replaced by the new list, and whenever the
old value satisfied `value = monthly + shared + download + upload +
Σ old items`, the new value equals `monthly + shared + download +
upload + Σ new items` within `1e-4`. -/
theorem applyOtherInvoices_recompute (invoiceId : Nat) (newItems : List OtherItem)
    (invoices : List Invoice) (inv : Invoice)
    (hfind : invoices.find? (fun i => i.id == invoiceId) = some inv) :
    (applyOtherInvoices invoiceId newItems invoices).1
      = .ok 200 (round4 (inv.invoice_value
          - inv.other_invoices.foldl (fun s item => s + item.ammount.getD 0) 0
          + newItems.foldl (fun s item => s + item.ammount.getD 0) 0)) ∧
    (applyOtherInvoices invoiceId newItems invoices).2
      = invoices.map (fun i => if i.id == invoiceId then
          { i with other_invoices := newItems,
                   invoice_value := round4 (inv.invoice_value
                     - inv.other_invoices.foldl (fun s item => s + item.ammount.getD 0) 0
                     + newItems.foldl (fun s item => s + item.ammount.getD 0) 0) }
          else i) ∧
    (inv.invoice_value = inv.monthly + inv.shared_amount + inv.download_amount
        + inv.upload_amount
        + inv.other_invoices.foldl (fun s item => s + item.ammount.getD 0) 0 →
      |round4 (inv.invoice_value
          - inv.other_invoices.foldl (fun s item => s + item.ammount.getD 0) 0
          + newItems.foldl (fun s item => s + item.ammount.getD 0) 0)
        - (inv.monthly + inv.shared_amount + inv.download_amount + inv.upload_amount
          + newItems.foldl (fun s item => s + item.ammount.getD 0) 0)| ≤ 1 / 10000) := by
  refine ⟨?_, ?_, fun h => ?_⟩
  · simp [applyOtherInvoices, hfind, updateWhere]
  · simp [applyOtherInvoices, hfind, updateWhere]
  · have e : inv.invoice_value
        - inv.other_invoices.foldl (fun s item => s + item.ammount.getD 0) 0
        + newItems.foldl (fun s item => s + item.ammount.getD 0) 0
        = inv.monthly + inv.shared_amount + inv.download_amount + inv.upload_amount
          + newItems.foldl (fun s item => s + item.ammount.getD 0) 0 := by
      rw [h]; ring
    rw [e]
    exact abs_round4_sub_le _

/-- C6 (witness): replacing the empty item list by the empty list on
`invAcme` keeps the value at `round4 121` and the consistency bound
holds with components `100 + 10 + 1 + 10`. -/
theorem applyOtherInvoices_recompute_witness :
    (applyOtherInvoices 1 [] [invAcme]).1 = .ok 200 (round4 (121 - 0 + 0)) ∧
    (applyOtherInvoices 1 [] [invAcme]).2
      = [invAcme].map (fun i => if i.id == 1 then
          { i with other_invoices := ([] : List OtherItem),
                   invoice_value := round4 (121 - 0 + 0) } else i) ∧
    |round4 ((121 : ℚ) - 0 + 0) - (100 + 10 + 1 + 10 + 0)| ≤ 1 / 10000 := by
  have h := applyOtherInvoices_recompute 1 [] [invAcme] invAcme rfl
  exact ⟨h.1, h.2.1, h.2.2 (by norm_num [invAcme])⟩

/-! ### C1 — progress_number across engine operations -/

/-- `find?` by id commutes with a conditional row update that
preserves ids. -/
theorem find?_id_of_update (p : Doc → Bool) (f : Doc → Doc)
    (hid : ∀ d, (f d).id = d.id) (docs : List Doc) (docId : Nat) :
    (docs.map (fun d => if p d then f d else d)).find? (fun d => d.id == docId)
      = (docs.find? (fun d => d.id == docId)).map
          (fun d => if p d then f d else d) := by
  have hpred : ((fun d => d.id == docId) ∘ fun d => if p d then f d else d)
      = (fun d => d.id == docId) := by
    funext d
    by_cases hp : p d <;> simp [Function.comp, hp, hid]
  rw [List.find?_map, hpred]

/-- `create` never changes an existing document's progress: the new
row is appended after every existing one. -/
theorem progressOf_create (actor : Actor) (tag_id : Nat) (url tag_name : String)
    (file_id : Nat) (title : String) (newDocId : Nat) (db : DocDB)
    (docId : Nat) (p : Nat) (hp : progressOf db docId = some p) :
    progressOf (createDocument actor tag_id url tag_name file_id title newDocId db).2
      docId = some p := by
  obtain ⟨d, hd, hdp⟩ := Option.map_eq_some'.mp hp
  unfold createDocument
  rcases h : db.document_tags.find? (fun t => t.id == tag_id) with _ | tag
  · rw [h]
    simpa [progressOf, hd] using hp
  · rw [h]
    by_cases hc : jsToLower actor.role == "client" <;>
      simp [progressOf, hc, updateWhere, List.find?_append, hd, Option.or_some, hdp]

/-- `saveDraft` either leaves a document's progress alone or sets it
to 3. -/
theorem progressOf_saveDraft (actor : Actor) (document_id : Nat) (db : DocDB)
    (docId : Nat) (p : Nat) (hp : progressOf db docId = some p) :
    progressOf (saveDraft actor document_id db).2 docId = some p ∨
    progressOf (saveDraft actor document_id db).2 docId = some 3 := by
  obtain ⟨d, hd, hdp⟩ := Option.map_eq_some'.mp hp
  cases hr : (jsToLower actor.role != "qa") with
  | true => left; simpa [saveDraft, hr, progressOf, hd] using hp
  | false =>
    simp only [saveDraft, hr, Bool.false_eq_true, if_false, updateWhere]
    unfold progressOf
    simp only
    rw [find?_id_of_update
        (fun x => x.id == document_id && x.company_id == actor.companyId)
        (fun x => { x with progress_number := 3 }) (fun _ => rfl), hd]
    by_cases hpd : d.id = document_id ∧ d.company_id = actor.companyId
    · right; simp [hpd]
    · left; simp [hpd, hdp]

/-- `publish` either leaves a document's progress alone or sets it
to 3. -/
theorem progressOf_publish (actor : Actor) (document_id : Nat) (db : DocDB)
    (docId : Nat) (p : Nat) (hp : progressOf db docId = some p) :
    progressOf (publish actor document_id db).2 docId = some p ∨
    progressOf (publish actor document_id db).2 docId = some 3 := by
  obtain ⟨d, hd, hdp⟩ := Option.map_eq_some'.mp hp
  simp only [publish, updateWhere]
  unfold progressOf
  simp only
  rw [find?_id_of_update
      (fun x => x.id == document_id && x.company_id == actor.companyId)
      (fun x => { x with progress_number := 3, is_published := true })
      (fun _ => rfl), hd]
  by_cases hpd : d.id = document_id ∧ d.company_id = actor.companyId
  · right; simp [hpd]
  · left; simp [hpd, hdp]

/-- `post-assignee` either leaves a document's progress alone, or —
only when the caller is an Indexer — sets it to 2. -/
theorem progressOf_postAssignee (actor : Actor) (did aid : Nat) (db : DocDB)
    (docId : Nat) (p : Nat) (hp : progressOf db docId = some p) :
    progressOf (postAssignee actor did aid db).2 docId = some p ∨
    (jsToLower actor.role = "indexer" ∧
      progressOf (postAssignee actor did aid db).2 docId = some 2) := by
  obtain ⟨d, hd, hdp⟩ := Option.map_eq_some'.mp hp
  rcases hfind : db.documents.find?
      (fun x => x.id == did && x.company_id == actor.companyId) with _ | d0
  · left; simpa [postAssignee, hfind, progressOf, hd] using hp
  · by_cases h1 : (jsToLower actor.role == "owner" || jsToLower actor.role == "manager"
        || jsToLower actor.role == "scanner" || jsToLower actor.role == "client") = true
    · left
      simp only [postAssignee, hfind, h1, if_true, updateWhere]
      unfold progressOf
      simp only
      rw [find?_id_of_update (fun x => x.id == did)
          (fun x => { x with passed_to := some aid, indexer_passed_id := some aid })
          (fun _ => rfl), hd]
      by_cases hpd : d.id = did
      · simp [hpd, hdp]
      · simp [hpd, hdp]
    · simp only [Bool.not_eq_true] at h1
      by_cases h2 : (jsToLower actor.role == "indexer") = true
      · simp only [postAssignee, hfind, h1, h2, if_true, Bool.false_eq_true,
          if_false, updateWhere]
        unfold progressOf
        simp only
        rw [find?_id_of_update (fun x => x.id == did)
            (fun x => { x with passed_to := some aid, qa_passed_id := some aid,
                               progress_number := 2 })
            (fun _ => rfl), hd]
        by_cases hpd : d.id = did
        · right
          refine ⟨by simpa [beq_iff_eq] using h2, ?_⟩
          simp [hpd]
        · left; simp [hpd, hdp]
      · simp only [Bool.not_eq_true] at h2
        left
        simpa [postAssignee, hfind, h1, h2, progressOf, hd] using hp

/-- C1 (amended).  Starting from any store in which the document's
progress is at most 3 (the only values the engine writes), no engine
operation lowers `progress_number` except `assign` invoked by an
Indexer on a document that already reached stage 3, which resets it
to 2. -/
theorem progress_decrease_characterization (op : EngineOp) (db : DocDB)
    (docId : Nat) (p p' : Nat) (hp : progressOf db docId = some p)
    (hp' : progressOf (applyOp op db) docId = some p')
    (hbound : p ≤ 3) (hdec : p' < p) :
    ∃ a did aid, op = .assign a did aid ∧ jsToLower a.role = "indexer" ∧
      p = 3 ∧ p' = 2 := by
  cases op with
  | create a t u tn f ti n =>
    have h := progressOf_create a t u tn f ti n db docId p hp
    rw [show applyOp (.create a t u tn f ti n) db
        = (createDocument a t u tn f ti n db).2 from rfl, h] at hp'
    exact absurd (Option.some.inj hp') (by omega)
  | draft a d2 =>
    rcases progressOf_saveDraft a d2 db docId p hp with h | h <;>
      rw [show applyOp (.draft a d2) db = (saveDraft a d2 db).2 from rfl, h] at hp'
    · exact absurd (Option.some.inj hp') (by omega)
    · exact absurd (Option.some.inj hp') (by omega)
  | pub a d2 =>
    rcases progressOf_publish a d2 db docId p hp with h | h <;>
      rw [show applyOp (.pub a d2) db = (publish a d2 db).2 from rfl, h] at hp'
    · exact absurd (Option.some.inj hp') (by omega)
    · exact absurd (Option.some.inj hp') (by omega)
  | assign a d2 aid2 =>
    rcases progressOf_postAssignee a d2 aid2 db docId p hp with h | ⟨hrole, h⟩
    · rw [show applyOp (.assign a d2 aid2) db = (postAssignee a d2 aid2 db).2 from rfl,
        h] at hp'
      exact absurd (Option.some.inj hp') (by omega)
    · rw [show applyOp (.assign a d2 aid2) db = (postAssignee a d2 aid2 db).2 from rfl,
        h] at hp'
      have hp2 : p' = 2 := (Option.some.inj hp').symm
      exact ⟨a, d2, aid2, rfl, hrole, by omega, hp2⟩

/-- Tenant-1 tag used by the lifecycle counterexample. -/
def lifecycleTag : DocumentTag := ⟨1, 1, "Tag", []⟩

/-- Tenant 1 itself. -/
def lifecycleCompany : Company :=
  ⟨1, "Acme", "a@a", "Active", none, 1, none, none, none, ⟨2025, 0⟩, none⟩

/-- Initial store: no documents yet. -/
def lifecycleDB0 : DocDB := ⟨[], [lifecycleTag], [lifecycleCompany], []⟩

/-- After `create` by Scanner 10: document 1 at progress 1. -/
def lifecycleCreated : DocDB :=
  applyOp (.create scannerSam 1 "http://u" "Tag" 7 "Doc" 1) lifecycleDB0

/-- After `saveDraft` by QA 11: document 1 at progress 3. -/
def lifecycleDrafted : DocDB := applyOp (.draft qaQuinn 1) lifecycleCreated

/-- After `assign` by Indexer 12: document 1 back at progress 2. -/
def lifecycleReassigned : DocDB := applyOp (.assign indexerIda 1 11) lifecycleDrafted

/-- C1 (counterexample).  A sequence of engine operations reachable
from the empty store — create (Scanner), saveDraft (QA), assign
(Indexer) — drives document 1's `progress_number` from 1 to 3 and
then back DOWN to 2: the assign handler sets `progress_number = 2`
unconditionally for an Indexer caller. -/
theorem progress_number_can_decrease :
    progressOf lifecycleCreated 1 = some 1 ∧
    progressOf lifecycleDrafted 1 = some 3 ∧
    progressOf lifecycleReassigned 1 = some 2 := by decide

/-- C1 (witness): the amended characterisation applied to the
decreasing step above pinpoints the Indexer assign as the only
possible cause. -/
theorem progress_decrease_characterization_witness :
    ∃ a did aid, (EngineOp.assign indexerIda 1 11) = .assign a did aid ∧
      jsToLower a.role = "indexer" ∧ (3 : Nat) = 3 ∧ (2 : Nat) = 2 :=
  progress_decrease_characterization (.assign indexerIda 1 11) lifecycleDrafted 1 3 2
    (by decide) (by decide) (by decide) (by decide)

/-! ### C5 — invoice amount computation -/

/-- The plan of the worked example: monthly 100, per-thousand share
rate 5 on 1000, per-thousand download rate 3 on 1000, per-ten upload
rate 2 on 10. -/
def examplePlan : Plan :=
  { id := 1, price_description := some 100, upload_count := some 10,
    download_count := some 1000, share_count := some 1000,
    share_price_per_thousand := some 5, download_price_per_thousand := some 3,
    upload_price_per_ten := some 2, billing_duration := some 1 }

/-- The usage of the worked example: 2000 shared, 500 downloaded, 50
uploaded. -/
def exampleCompany : Company :=
  ⟨1, "Acme", "a@a", "Active", none, 1, some 2000, some 500, some 50,
   ⟨2025, 0⟩, none⟩

/-- C5.  The generated invoice's components follow the claimed
formulas — each a `round4` of usage over its divisor (a divisor that
is unset or zero counts as 1) times the rate, the total a `round4` of
the monthly base plus the three rounded components — and on the
worked example they come to 10, 1.5, 10 and 121.5. -/
theorem mkInvoice_amounts :
    (∀ (label : String) (c : Company) (plan : Plan),
      (mkInvoice label c plan).shared_amount
        = round4 ((c.document_shared.getD 0)
            / (match plan.share_count with
               | none => 1 | some v => if v = 0 then 1 else v)
            * (plan.share_price_per_thousand.getD 0)) ∧
      (mkInvoice label c plan).download_amount
        = round4 ((c.document_downloaded.getD 0)
            / (match plan.download_count with
               | none => 1 | some v => if v = 0 then 1 else v)
            * (plan.download_price_per_thousand.getD 0)) ∧
      (mkInvoice label c plan).upload_amount
        = round4 ((c.document_uploaded.getD 0)
            / (match plan.upload_count with
               | none => 1 | some v => if v = 0 then 1 else v)
            * (plan.upload_price_per_ten.getD 0)) ∧
      (mkInvoice label c plan).invoice_value
        = round4 ((match plan.price_description with
               | none => 0 | some v => if v = 0 then 0 else v)
            + (mkInvoice label c plan).shared_amount
            + (mkInvoice label c plan).download_amount
            + (mkInvoice label c plan).upload_amount)) ∧
    (mkInvoice "July 2025" exampleCompany examplePlan).shared_amount = 10 ∧
    (mkInvoice "July 2025" exampleCompany examplePlan).download_amount = 3 / 2 ∧
    (mkInvoice "July 2025" exampleCompany examplePlan).upload_amount = 10 ∧
    (mkInvoice "July 2025" exampleCompany examplePlan).invoice_value = 243 / 2 := by
  refine ⟨fun label c plan => ⟨rfl, rfl, rfl, rfl⟩, ?_, ?_, ?_, ?_⟩ <;>
    norm_num [mkInvoice, jsOr, round4, exampleCompany, examplePlan]

/-! ### C4 — idempotent invoice generation -/

/-- The per-company result entry the generation loop pushes (a
functional view of one `genStep` iteration). -/
def genOutcome (now : MonthDate) (_currentMonth : String) (plans : List Plan)
    (existingInvoices : List Invoice) (company : Company) : GenResult :=
  if existingInvoices.any (fun inv => inv.company_id == company.id) then
    ⟨company.name, .alreadyExists⟩
  else
    match plans.find? (fun p => p.id == company.plan_id) with
    | none => ⟨company.name, .planNotFound⟩
    | some plan =>
      let referenceDate := company.last_invoice_paid.getD company.created_at
      let monthDifference :=
        (now.year - referenceDate.year) * 12 + (now.month - referenceDate.month)
      if monthDifference < jsOrInt plan.billing_duration 1 then
        ⟨company.name, .notDueYet⟩
      else
        ⟨company.name, .invoiceCreated⟩

/-- The invoice one `genStep` iteration inserts for a company, if
any. -/
def genInsert (now : MonthDate) (currentMonth : String) (plans : List Plan)
    (existingInvoices : List Invoice) (company : Company) : Option Invoice :=
  if existingInvoices.any (fun inv => inv.company_id == company.id) then
    none
  else
    match plans.find? (fun p => p.id == company.plan_id) with
    | none => none
    | some plan =>
      let referenceDate := company.last_invoice_paid.getD company.created_at
      let monthDifference :=
        (now.year - referenceDate.year) * 12 + (now.month - referenceDate.month)
      if monthDifference < jsOrInt plan.billing_duration 1 then
        none
      else
        some (mkInvoice currentMonth company plan)

/-- One loop iteration appends its outcome and its inserted invoice
(if any) to the accumulator. -/
theorem genStep_eq (now : MonthDate) (cm : String) (plans : List Plan)
    (ex : List Invoice) (acc : List GenResult × List Invoice) (c : Company) :
    genStep now cm plans ex acc c
      = (acc.1 ++ [genOutcome now cm plans ex c],
         acc.2 ++ (genInsert now cm plans ex c).toList) := by
  unfold genStep genOutcome genInsert
  by_cases ha : ex.any (fun inv => inv.company_id == c.id)
  · simp [ha]
  · rcases hp : plans.find? (fun p => p.id == c.plan_id) with _ | plan
    · simp [ha, hp]
    · simp only [ha, hp, Bool.false_eq_true, if_false]
      split <;> simp

/-- Folding the loop over the company list yields the mapped outcomes
and the filter-mapped inserts. -/
theorem foldl_genStep (now : MonthDate) (cm : String) (plans : List Plan)
    (ex : List Invoice) (cs : List Company) (acc : List GenResult × List Invoice) :
    cs.foldl (genStep now cm plans ex) acc
      = (acc.1 ++ cs.map (genOutcome now cm plans ex),
         acc.2 ++ cs.filterMap (genInsert now cm plans ex)) := by
  induction cs generalizing acc with
  | nil => simp
  | cons c cs ih =>
    rw [List.foldl_cons, genStep_eq, ih]
    rcases hi : genInsert now cm plans ex c with _ | inv <;>
      simp [hi, List.filterMap_cons]

/-- The outcome list one `POST /generate-invoices` run reports. -/
def genResults (now : MonthDate) (db : BillingDB) : List GenResult :=
  (db.companies.filter (fun c => c.status == "Active")).map
    (genOutcome now (monthLabel now) db.plans
      (db.invoices.filter (fun i => i.invoice_month == monthLabel now)))

/-- The invoices one `POST /generate-invoices` run inserts. -/
def genInserted (now : MonthDate) (db : BillingDB) : List Invoice :=
  (db.companies.filter (fun c => c.status == "Active")).filterMap
    (genInsert now (monthLabel now) db.plans
      (db.invoices.filter (fun i => i.invoice_month == monthLabel now)))

/-- `POST /generate-invoices` in closed form: the per-company
outcomes, and the due companies' invoices appended to the store. -/
theorem generateInvoices_eq (now : MonthDate) (db : BillingDB) :
    generateInvoices now db
      = (genResults now db,
         { db with invoices := db.invoices ++ genInserted now db }) := by
  simp only [generateInvoices, genResults, genInserted, foldl_genStep,
    List.nil_append]

/-- An inserted invoice carries its company's id and the current
period label. -/
theorem genInsert_fields (now : MonthDate) (cm : String) (plans : List Plan)
    (ex : List Invoice) (c : Company) (inv : Invoice)
    (h : genInsert now cm plans ex c = some inv) :
    inv.company_id = c.id ∧ inv.invoice_month = cm := by
  unfold genInsert at h
  by_cases ha : ex.any (fun inv => inv.company_id == c.id)
  · simp [ha] at h
  · rcases hp : plans.find? (fun p => p.id == c.plan_id) with _ | plan
    · simp [ha, hp] at h
    · simp only [ha, hp, Bool.false_eq_true, if_false] at h
      split at h
      · exact absurd h (by simp)
      · cases h
        exact ⟨rfl, rfl⟩

/-- No invoice is inserted for a company already present in the
period snapshot. -/
theorem genInsert_none_of_any (now : MonthDate) (cm : String) (plans : List Plan)
    (ex : List Invoice) (c : Company)
    (h : ex.any (fun inv => inv.company_id == c.id) = true) :
    genInsert now cm plans ex c = none := by
  simp [genInsert, h]

/-- The loop's period snapshot sees a company iff the store already
holds a row for that company and period. -/
theorem snapshot_any_iff (invs : List Invoice) (cid : Nat) (lbl : String) :
    ((invs.filter (fun i => i.invoice_month == lbl)).any
        (fun i => i.company_id == cid) = true)
      ↔ invs.filter (fun i => i.company_id == cid && i.invoice_month == lbl) ≠ [] := by
  rw [List.any_eq_true, Ne, List.eq_nil_iff_forall_not_mem]
  push_neg
  constructor
  · rintro ⟨i, hi, hc⟩
    refine ⟨i, ?_⟩
    rw [List.mem_filter] at hi ⊢
    simp only [Bool.and_eq_true]
    exact ⟨hi.1, by simpa using hc, hi.2⟩
  · rintro ⟨i, hi⟩
    rw [List.mem_filter, Bool.and_eq_true] at hi
    exact ⟨i, List.mem_filter.mpr ⟨hi.1, hi.2.2⟩, hi.2.1⟩

/-- Filtering the inserted invoices on one company id and the period
label keeps exactly the inserts of the companies carrying that id. -/
theorem filter_filterMap_genInsert (now : MonthDate) (lbl : String)
    (plans : List Plan) (ex : List Invoice) (cid : Nat) (cs : List Company) :
    (cs.filterMap (genInsert now lbl plans ex)).filter
        (fun i => i.company_id == cid && i.invoice_month == lbl)
      = (cs.filter (fun c => c.id == cid)).filterMap (genInsert now lbl plans ex) := by
  induction cs with
  | nil => rfl
  | cons c cs ih =>
    rcases hi : genInsert now lbl plans ex c with _ | inv
    · by_cases hc : c.id = cid <;>
        simp [List.filterMap_cons, List.filter_cons, hi, hc, ih]
    · obtain ⟨hcompany, hmonth⟩ := genInsert_fields _ _ _ _ _ _ hi
      by_cases hc : c.id = cid <;>
        simp [List.filterMap_cons, List.filter_cons, hi, hc, hcompany, hmonth, ih]

/-- With pairwise-distinct ids, filtering a company list on a
member's id yields that member alone. -/
theorem filter_id_eq_singleton (cs : List Company) (c : Company)
    (hnodup : (cs.map (·.id)).Nodup) (hmem : c ∈ cs) :
    cs.filter (fun x => x.id == c.id) = [c] := by
  induction cs with
  | nil => cases hmem
  | cons d ds ih =>
    rw [List.map_cons, List.nodup_cons] at hnodup
    rcases List.mem_cons.mp hmem with rfl | hmem'
    · rw [List.filter_cons_of_pos (by simp)]
      have hnil : ds.filter (fun x => x.id == c.id) = [] := by
        rw [List.filter_eq_nil_iff]
        intro x hx hxid
        exact hnodup.1 (List.mem_map.mpr ⟨x, hx, by simpa using hxid⟩)
      rw [hnil]
    · have hne : d.id ≠ c.id := fun h =>
        hnodup.1 (h ▸ List.mem_map.mpr ⟨c, hmem', rfl⟩)
      rw [List.filter_cons_of_neg (by simp [hne])]
      exact ih hnodup.2 hmem'

/-- A run never adds a second row for a (company, period) pair that
already has one: the whole filtered row set is unchanged. -/
theorem run_preserves (now : MonthDate) (db : BillingDB) (cid : Nat)
    (hne : db.invoices.filter
      (fun i => i.company_id == cid && i.invoice_month == monthLabel now) ≠ []) :
    (generateInvoices now db).2.invoices.filter
        (fun i => i.company_id == cid && i.invoice_month == monthLabel now)
      = db.invoices.filter
        (fun i => i.company_id == cid && i.invoice_month == monthLabel now) := by
  rw [generateInvoices_eq]
  simp only
  rw [List.filter_append]
  suffices h : (genInserted now db).filter
      (fun i => i.company_id == cid && i.invoice_month == monthLabel now) = [] by
    rw [h, List.append_nil]
  rw [List.filter_eq_nil_iff]
  intro inv hinv hpred
  rw [genInserted] at hinv
  obtain ⟨cc, _hcc, hgen⟩ := List.mem_filterMap.mp hinv
  obtain ⟨hcompany, _hmonth⟩ := genInsert_fields _ _ _ _ _ _ hgen
  have hcid : cc.id = cid := by
    rw [Bool.and_eq_true, beq_iff_eq] at hpred
    rw [← hcompany]
    exact hpred.1
  have hany : (db.invoices.filter (fun i => i.invoice_month == monthLabel now)).any
      (fun i => i.company_id == cc.id) = true := by
    rw [hcid]
    exact (snapshot_any_iff _ _ _).mpr hne
  rw [genInsert_none_of_any _ _ _ _ _ hany] at hgen
  cases hgen

/-- A run inserts exactly one row for an active, due company that has
a plan and no row yet for the current period. -/
theorem run_creates (now : MonthDate) (db : BillingDB) (c : Company) (plan : Plan)
    (hnodup : (db.companies.map (·.id)).Nodup)
    (hmem : c ∈ db.companies) (hact : c.status = "Active")
    (hplan : db.plans.find? (fun p => p.id == c.plan_id) = some plan)
    (hdue : ¬((now.year - (c.last_invoice_paid.getD c.created_at).year) * 12
          + (now.month - (c.last_invoice_paid.getD c.created_at).month)
        < jsOrInt plan.billing_duration 1))
    (hzero : db.invoices.filter
      (fun i => i.company_id == c.id && i.invoice_month == monthLabel now) = []) :
    ((generateInvoices now db).2.invoices.filter
      (fun i => i.company_id == c.id && i.invoice_month == monthLabel now)).length
      = 1 := by
  have hnodup' : ((db.companies.filter (fun x => x.status == "Active")).map
      (·.id)).Nodup :=
    hnodup.sublist ((List.filter_sublist _).map _)
  have hmem' : c ∈ db.companies.filter (fun x => x.status == "Active") :=
    List.mem_filter.mpr ⟨hmem, by simp [hact]⟩
  have hins : genInsert now (monthLabel now) db.plans
      (db.invoices.filter (fun i => i.invoice_month == monthLabel now)) c
      = some (mkInvoice (monthLabel now) c plan) := by
    unfold genInsert
    cases hA : (db.invoices.filter (fun i => i.invoice_month == monthLabel now)).any
        (fun i => i.company_id == c.id) with
    | false => simp [hplan, hdue]
    | true => exact absurd hzero ((snapshot_any_iff _ _ _).mp hA)
  rw [generateInvoices_eq]
  simp only
  rw [List.filter_append, hzero, List.nil_append, genInserted,
    filter_filterMap_genInsert, filter_id_eq_singleton _ c hnodup' hmem']
  simp [List.filterMap_cons, hins]

/-- `n` sequential invocations of `POST /generate-invoices` at the
same instant. -/
def runN (now : MonthDate) : Nat → BillingDB → BillingDB
  | 0, db => db
  | n + 1, db => (generateInvoices now (runN now n db)).2

/-- Generation only appends invoices: the companies table is
untouched. -/
theorem runN_companies (now : MonthDate) (n : Nat) (db : BillingDB) :
    (runN now n db).companies = db.companies := by
  induction n with
  | zero => rfl
  | succ m ih => rw [runN, generateInvoices_eq]; exact ih

/-- Generation only appends invoices: the plans table is untouched. -/
theorem runN_plans (now : MonthDate) (n : Nat) (db : BillingDB) :
    (runN now n db).plans = db.plans := by
  induction n with
  | zero => rfl
  | succ m ih => rw [runN, generateInvoices_eq]; exact ih

/-- A run reports "Invoice already exists" for an active company that
already has a row for the current period. -/
theorem alreadyExists_mem (now : MonthDate) (s : BillingDB) (c : Company)
    (hmem : c ∈ s.companies) (hact : c.status = "Active")
    (hne : s.invoices.filter
      (fun i => i.company_id == c.id && i.invoice_month == monthLabel now) ≠ []) :
    GenResult.mk c.name .alreadyExists ∈ genResults now s := by
  have hany : (s.invoices.filter (fun i => i.invoice_month == monthLabel now)).any
      (fun i => i.company_id == c.id) = true :=
    (snapshot_any_iff _ _ _).mpr hne
  have hout : genOutcome now (monthLabel now) s.plans
      (s.invoices.filter (fun i => i.invoice_month == monthLabel now)) c
      = ⟨c.name, .alreadyExists⟩ := by
    simp [genOutcome, hany]
  exact List.mem_map.mpr ⟨c, List.mem_filter.mpr ⟨hmem, by simp [hact]⟩, hout⟩

/-- C4.  For an active, due company with a plan, pairwise-distinct
company ids and no invoice yet for the current period, any number
`n ≥ 1` of sequential `POST /generate-invoices` invocations leaves
exactly one `(company, period)` invoice row, and the invocation after
those `n` reports "Invoice already exists" for that company instead
of inserting again. -/
theorem generateInvoices_idempotent (now : MonthDate) (db : BillingDB)
    (c : Company) (plan : Plan)
    (hnodup : (db.companies.map (·.id)).Nodup)
    (hmem : c ∈ db.companies) (hact : c.status = "Active")
    (hplan : db.plans.find? (fun p => p.id == c.plan_id) = some plan)
    (hdue : ¬((now.year - (c.last_invoice_paid.getD c.created_at).year) * 12
          + (now.month - (c.last_invoice_paid.getD c.created_at).month)
        < jsOrInt plan.billing_duration 1))
    (hzero : db.invoices.filter
      (fun i => i.company_id == c.id && i.invoice_month == monthLabel now) = []) :
    ∀ n, 1 ≤ n →
      ((runN now n db).invoices.filter
        (fun i => i.company_id == c.id && i.invoice_month == monthLabel now)).length
        = 1 ∧
      GenResult.mk c.name .alreadyExists ∈ genResults now (runN now n db) := by
  have key : ∀ n, 1 ≤ n →
      ((runN now n db).invoices.filter
        (fun i => i.company_id == c.id && i.invoice_month == monthLabel now)).length
        = 1 := by
    intro n
    induction n with
    | zero => omega
    | succ m ih =>
      intro _
      by_cases hm : m = 0
      · subst hm
        exact run_creates now db c plan hnodup hmem hact hplan hdue hzero
      · have hlen := ih (Nat.one_le_iff_ne_zero.mpr hm)
        have hne : (runN now m db).invoices.filter
            (fun i => i.company_id == c.id && i.invoice_month == monthLabel now)
            ≠ [] := by
          intro hnil
          rw [hnil] at hlen
          exact absurd hlen (by simp)
        rw [runN, run_preserves now (runN now m db) c.id hne]
        exact hlen
  intro n hn
  refine ⟨key n hn, ?_⟩
  have hlen := key n hn
  have hne : (runN now n db).invoices.filter
      (fun i => i.company_id == c.id && i.invoice_month == monthLabel now) ≠ [] := by
    intro hnil
    rw [hnil] at hlen
    exact absurd hlen (by simp)
  exact alreadyExists_mem now (runN now n db) c
    (by rw [runN_companies]; exact hmem) hact hne

/-- A billing store with one active, due company on `examplePlan` and
no invoices yet. -/
def genDB : BillingDB :=
  { companies := [exampleCompany], clients := [], plans := [examplePlan],
    invoices := [], custom_invoices := [], client_invoices := [] }

/-- C4 (witness): one run at June 2025 leaves exactly one row for
(company 1, "June 2025") and the next run reports "Invoice already
exists". -/
theorem generateInvoices_idempotent_witness :
    ((runN ⟨2025, 5⟩ 1 genDB).invoices.filter
      (fun i => i.company_id == exampleCompany.id
        && i.invoice_month == monthLabel ⟨2025, 5⟩)).length = 1 ∧
    GenResult.mk exampleCompany.name .alreadyExists
      ∈ genResults ⟨2025, 5⟩ (runN ⟨2025, 5⟩ 1 genDB) :=
  generateInvoices_idempotent ⟨2025, 5⟩ genDB exampleCompany examplePlan
    (by decide) (List.mem_singleton.mpr rfl) rfl rfl (by decide) rfl 1 le_rfl
